import Mathlib

/-!
Shallow embedding of the CastAlgo binary prediction-market contract
(src/contracts/app.py, src/contracts/market_logic.py, src/contracts/asa_utils.py).

Account addresses and asset ids are modelled as naturals; the empty byte
string held by an unset global byte slot is modelled as 0, and real 32-byte
account addresses as positive naturals.  TEAL uint64 arithmetic aborts on
overflow, so every arithmetic step the contract itself performs is guarded by
an explicit bound check against 2 ^ 64.  Ledger effects of inner transactions
(asset transfer, clawback, payment) carry their standard failure conditions
(receiver not opted in, insufficient funds).  A failed call leaves the chain
untouched: operations return `Except Err _` and an error carries no state,
matching the all-or-nothing semantics of an Algorand transaction.
-/

namespace AlgoCast

abbrev Addr := Nat
abbrev AsaId := Nat

/-- TEAL uint64 arithmetic fails (aborts the call) when a result reaches 2 ^ 64. -/
def U64 : Nat := 2 ^ 64

/-- config.py: YES / NO ASA total supply minted on market creation. -/
def ASA_TOTAL_SUPPLY : Nat := 1000000000

/-- Global state of one market instance: the nine keys of market_logic.py
plus the multisig slot written by app.py create_market. -/
structure MarketState where
  question : List Nat
  creator : Addr
  multisig : Addr
  close_ts : Nat
  yes_asa : AsaId
  no_asa : AsaId
  yes_reserve : Nat
  no_reserve : Nat
  resolved : Nat
  outcome : Nat
deriving DecidableEq

/-- The market globals together with the external ledger the inner
transactions act on: per-account ASA holdings (`none` = not opted in) and
microAlgo balances, plus a counter supplying fresh asset ids. -/
structure Chain where
  market : MarketState
  tokenBal : Addr → AsaId → Option Nat
  algoBal : Addr → Nat
  nextAsa : AsaId

/-- Per-call ambient data: Global.latest_timestamp, Txn.sender and
Global.current_application_address. -/
structure Env where
  now : Nat
  sender : Addr
  appAddr : Addr
deriving DecidableEq

/-- The payment transaction grouped with a buy call: declared sender,
declared receiver, microAlgo amount. -/
structure PayTxn where
  sender : Addr
  receiver : Addr
  amount : Nat
deriving DecidableEq

/-- Abort reasons, one per Assert comment in the source, plus the TEAL
arithmetic-overflow abort and inner-transaction (settlement) failure. -/
inductive Err where
  | alreadyInitialized
  | closeTsNotFuture
  | emptyQuestion
  | questionTooLong
  | payNotToContract
  | paySenderMismatch
  | alreadyResolved
  | tradingClosed
  | amountNotPositive
  | overflow
  | notCreator
  | notExpired
  | badOutcome
  | notResolved
  | noHolding
  | zeroBalance
  | settlementFailure
deriving DecidableEq

/-- Point update of an ASA balance table. -/
def setBal (f : Addr → AsaId → Option Nat) (a : Addr) (i : AsaId) (v : Nat) :
    Addr → AsaId → Option Nat :=
  fun a' i' => if a' = a ∧ i' = i then some v else f a' i'

/-- Point update of the microAlgo balance table. -/
def setAlgo (f : Addr → Nat) (a : Addr) (v : Nat) : Addr → Nat :=
  fun a' => if a' = a then v else f a'

/-- Inner AssetTransfer of `amt` units of `asa` from `src` to `dst`: fails if
the source lacks funds or either party has no holding slot for the asset. -/
def asaTransfer (src dst : Addr) (asa : AsaId) (amt : Nat) (c : Chain) :
    Except Err Chain :=
  match c.tokenBal src asa with
  | none => .error .settlementFailure
  | some sbal =>
    if amt ≤ sbal then
      let f1 := setBal c.tokenBal src asa (sbal - amt)
      match f1 dst asa with
      | none => .error .settlementFailure
      | some dbal => .ok { c with tokenBal := setBal f1 dst asa (dbal + amt) }
    else .error .settlementFailure

/-- asa_utils.send_asa: the contract account sends `amount` units of
`asset_id` to `receiver`. -/
def send_asa (e : Env) (asset_id : AsaId) (receiver : Addr) (amount : Nat)
    (c : Chain) : Except Err Chain :=
  asaTransfer e.appAddr receiver asset_id amount c

/-- asa_utils.burn_asa: clawback `amount` units of `asset_id` from
`clawback_from` back to the contract account. -/
def burn_asa (e : Env) (asset_id : AsaId) (clawback_from : Addr) (amount : Nat)
    (c : Chain) : Except Err Chain :=
  asaTransfer clawback_from e.appAddr asset_id amount c

/-- asa_utils.send_algo: inner payment of `amount` microAlgos from the
contract account to `receiver`. -/
def send_algo (e : Env) (receiver : Addr) (amount : Nat) (c : Chain) :
    Except Err Chain :=
  if amount ≤ c.algoBal e.appAddr then
    let f1 := setAlgo c.algoBal e.appAddr (c.algoBal e.appAddr - amount)
    .ok { c with algoBal := setAlgo f1 receiver (f1 receiver + amount) }
  else .error .settlementFailure

/-- asa_utils.create_asa: inner AssetConfig minting `total` units of a fresh
asset; the creating (application) account holds the full supply. -/
def create_asa (appAddr : Addr) (total : Nat) (c : Chain) : Chain × AsaId :=
  ({ c with tokenBal := setBal c.tokenBal appAddr c.nextAsa total,
            nextAsa := c.nextAsa + 1 },
   c.nextAsa)

/-- market_logic.tokens_for_amount: 1:1 hackathon pricing. -/
def tokens_for_amount (amount_micro : Nat) : Nat := amount_micro

/-- app.create_market: one-shot initialisation guarded by close_ts = 0;
validates the deadline and the question length, stores the metadata,
zeroes the reserves, then mints the YES and NO ASAs. -/
def create_market (e : Env) (question : List Nat) (close_ts : Nat)
    (multisig_addr : Addr) (c : Chain) : Except Err Chain :=
  if c.market.close_ts = 0 then
    if e.now < close_ts then
      if 0 < question.length then
        if question.length ≤ 128 then
          let c1 : Chain := { c with market := { c.market with
            creator := e.sender, multisig := multisig_addr,
            question := question, close_ts := close_ts,
            yes_reserve := 0, no_reserve := 0, resolved := 0, outcome := 0 } }
          let p1 := create_asa e.appAddr ASA_TOTAL_SUPPLY c1
          let c2 : Chain := { p1.1 with market := { p1.1.market with yes_asa := p1.2 } }
          let p2 := create_asa e.appAddr ASA_TOTAL_SUPPLY c2
          .ok { p2.1 with market := { p2.1.market with no_asa := p2.2 } }
        else .error .questionTooLong
      else .error .emptyQuestion
    else .error .closeTsNotFuture
  else .error .alreadyInitialized

/-- market_logic.handle_buy_yes: guards (not resolved, window open, positive
amount), reserve update (TEAL add aborts on uint64 overflow), then the YES
ASA transfer to the buyer. -/
def handle_buy_yes (e : Env) (payment_amount : Nat) (buyer : Addr) (c : Chain) :
    Except Err Chain :=
  if c.market.resolved = 0 then
    if e.now < c.market.close_ts then
      if 0 < payment_amount then
        if c.market.yes_reserve + payment_amount < U64 then
          send_asa e c.market.yes_asa buyer (tokens_for_amount payment_amount)
            { c with market := { c.market with
                yes_reserve := c.market.yes_reserve + payment_amount } }
        else .error .overflow
      else .error .amountNotPositive
    else .error .tradingClosed
  else .error .alreadyResolved

/-- market_logic.handle_buy_no: mirror of handle_buy_yes for NO tokens. -/
def handle_buy_no (e : Env) (payment_amount : Nat) (buyer : Addr) (c : Chain) :
    Except Err Chain :=
  if c.market.resolved = 0 then
    if e.now < c.market.close_ts then
      if 0 < payment_amount then
        if c.market.no_reserve + payment_amount < U64 then
          send_asa e c.market.no_asa buyer (tokens_for_amount payment_amount)
            { c with market := { c.market with
                no_reserve := c.market.no_reserve + payment_amount } }
        else .error .overflow
      else .error .amountNotPositive
    else .error .tradingClosed
  else .error .alreadyResolved

/-- app.buy_yes: checks the grouped payment (receiver must be the contract,
sender must be the caller), runs handle_buy_yes, returns the tokens issued. -/
def buy_yes (e : Env) (payment : PayTxn) (c : Chain) : Except Err (Chain × Nat) :=
  if payment.receiver = e.appAddr then
    if payment.sender = e.sender then
      match handle_buy_yes e payment.amount payment.sender c with
      | .error er => .error er
      | .ok c' => .ok (c', payment.amount)
    else .error .paySenderMismatch
  else .error .payNotToContract

/-- app.buy_no: mirror of buy_yes. -/
def buy_no (e : Env) (payment : PayTxn) (c : Chain) : Except Err (Chain × Nat) :=
  if payment.receiver = e.appAddr then
    if payment.sender = e.sender then
      match handle_buy_no e payment.amount payment.sender c with
      | .error er => .error er
      | .ok c' => .ok (c', payment.amount)
    else .error .paySenderMismatch
  else .error .payNotToContract

/-- market_logic.handle_resolve: caller must equal the stored creator, market
not yet resolved, deadline passed, outcome in {0,1}; then records the
outcome and sets resolved. -/
def handle_resolve (e : Env) (outcome : Nat) (caller : Addr) (c : Chain) :
    Except Err Chain :=
  if caller = c.market.creator then
    if c.market.resolved = 0 then
      if c.market.close_ts ≤ e.now then
        if outcome = 0 ∨ outcome = 1 then
          .ok { c with market := { c.market with resolved := 1, outcome := outcome } }
        else .error .badOutcome
      else .error .notExpired
    else .error .alreadyResolved
  else .error .notCreator

/-- app.resolve_market: handle_resolve with the transaction sender as caller. -/
def resolve_market (e : Env) (outcome : Nat) (c : Chain) : Except Err Chain :=
  handle_resolve e outcome e.sender c

/-- Winning ASA selection shared by handle_claim and claim:
YES ASA when outcome = 1, NO ASA otherwise. -/
def winningAsa (m : MarketState) : AsaId :=
  if m.outcome = 1 then m.yes_asa else m.no_asa

/-- market_logic.handle_claim: market must be resolved; reads the claimant
balance of the winning ASA (abort if not opted in or zero), claws the whole
balance back to the contract, then pays out the same amount in microAlgos. -/
def handle_claim (e : Env) (claimer : Addr) (c : Chain) : Except Err Chain :=
  if c.market.resolved = 1 then
    match c.tokenBal claimer (winningAsa c.market) with
    | none => .error .noHolding
    | some bal =>
      if 0 < bal then
        match burn_asa e (winningAsa c.market) claimer bal c with
        | .error er => .error er
        | .ok c1 => send_algo e claimer bal c1
      else .error .zeroBalance
  else .error .notResolved

/-- app.claim: runs handle_claim for the sender, then (exactly as sequenced
in the source Seq) re-reads the sender balance of the winning ASA after the
burn and returns that value as the ABI output; an absent holding reads as 0,
mirroring the ignored has-value flag of asset_holding_get. -/
def claim (e : Env) (c : Chain) : Except Err (Chain × Nat) :=
  match handle_claim e e.sender c with
  | .error er => .error er
  | .ok c1 => .ok (c1, (c1.tokenBal e.sender (winningAsa c1.market)).getD 0)

/-- market_logic.compute_yes_probability: basis points of the YES side,
5000 when no reserves; the TEAL add and multiply abort on uint64 overflow. -/
def compute_yes_probability (c : Chain) : Except Err Nat :=
  let yes_r := c.market.yes_reserve
  let no_r := c.market.no_reserve
  if yes_r + no_r < U64 then
    if yes_r + no_r = 0 then .ok 5000
    else if yes_r * 10000 < U64 then .ok (yes_r * 10000 / (yes_r + no_r))
    else .error .overflow
  else .error .overflow

/-- One public call together with its ambient data, for reasoning about
arbitrary sequences of operations against one market. -/
inductive Action where
  | create (e : Env) (question : List Nat) (close_ts : Nat) (multisig_addr : Addr)
  | buyYes (e : Env) (payment : PayTxn)
  | buyNo (e : Env) (payment : PayTxn)
  | resolve (e : Env) (outcome : Nat)
  | claimBy (e : Env)

/-- Timestamp carried by an action. -/
def Action.now : Action → Nat
  | .create e _ _ _ => e.now
  | .buyYes e _ => e.now
  | .buyNo e _ => e.now
  | .resolve e _ => e.now
  | .claimBy e => e.now

/-- Chain outcome of one call, discarding the ABI return value. -/
def applyAction (a : Action) (c : Chain) : Except Err Chain :=
  match a with
  | .create e q t ms => create_market e q t ms c
  | .buyYes e p => (buy_yes e p c).map Prod.fst
  | .buyNo e p => (buy_no e p c).map Prod.fst
  | .resolve e o => resolve_market e o c
  | .claimBy e => (claim e c).map Prod.fst

/-- A failed call is rolled back completely: the chain is unchanged. -/
def run1 (c : Chain) (a : Action) : Chain :=
  match applyAction a c with
  | .ok c' => c'
  | .error _ => c

/-- Execute a sequence of calls, each one all-or-nothing. -/
def run (c : Chain) : List Action → Chain
  | [] => c
  | a :: rest => run (run1 c a) rest

/-- Amount credited by an action: the payment amount when the action is a
buy that succeeds on the given chain, 0 otherwise. -/
def acceptedAmount (c : Chain) (a : Action) : Nat :=
  match a with
  | .buyYes e p => match buy_yes e p c with | .ok _ => p.amount | .error _ => 0
  | .buyNo e p => match buy_no e p c with | .ok _ => p.amount | .error _ => 0
  | _ => 0

/-- Sum of the amounts accepted by successful buys along a trace. -/
def acceptedSum (c : Chain) : List Action → Nat
  | [] => 0
  | a :: rest => acceptedAmount c a + acceptedSum (run1 c a) rest

/-- Total value deposited across both sides. -/
def reserveSum (c : Chain) : Nat :=
  c.market.yes_reserve + c.market.no_reserve

/-- Erase the stored multisig slot (the only state the multisig_addr
argument of create_market ever reaches). -/
def scrubMs (c : Chain) : Chain :=
  { c with market := { c.market with multisig := 0 } }

/-- First projection helpers for naming the results of successful calls. -/
def okChain (r : Except Err Chain) (d : Chain) : Chain :=
  match r with
  | .ok c => c
  | .error _ => d

def okState (r : Except Err (Chain × Nat)) (d : Chain) : Chain :=
  match r with
  | .ok p => p.1
  | .error _ => d

def okVal (r : Except Err (Chain × Nat)) : Nat :=
  match r with
  | .ok p => p.2
  | .error _ => 0

def isOkRes {α : Type} (r : Except Err α) : Bool :=
  match r with
  | .ok _ => true
  | .error _ => false

/-- Completely blank chain: every global slot at its zero value, nobody
opted into anything, no funds anywhere. -/
def mkt0 : MarketState :=
  { question := [], creator := 0, multisig := 0, close_ts := 0,
    yes_asa := 0, no_asa := 0, yes_reserve := 0, no_reserve := 0,
    resolved := 0, outcome := 0 }

def chain0 : Chain :=
  { market := mkt0, tokenBal := fun _ _ => none, algoBal := fun _ => 0,
    nextAsa := 10 }

/-- Deployment call data: time 0, creator address 1, contract address 100. -/
def env0 : Env := { now := 0, sender := 1, appAddr := 100 }

/-- A four-byte question. -/
def q0 : List Nat := [87, 105, 108, 108]

/-- The market obtained by the one successful create_market call on the
blank chain: creator 1, multisig 2, deadline 50, ASAs 10 and 11. -/
def c1ex : Chain := okChain (create_market env0 q0 50 2 chain0) chain0

/-- An open market (deadline 50, nothing resolved) whose trader, address 5,
has opted into both ASAs; the contract account 100 holds the supplies and
500 microAlgos. -/
def cOpen : Chain :=
  { market := { question := q0, creator := 1, multisig := 2, close_ts := 50,
                yes_asa := 10, no_asa := 11, yes_reserve := 0, no_reserve := 0,
                resolved := 0, outcome := 0 },
    tokenBal := fun a i =>
      if a = 100 ∧ (i = 10 ∨ i = 11) then some ASA_TOTAL_SUPPLY
      else if a = 5 ∧ (i = 10 ∨ i = 11) then some 0
      else none,
    algoBal := fun a => if a = 100 then 500 else 0,
    nextAsa := 12 }

/-- The same market resolved YES after the close, with trader 5 holding 100
YES tokens bought for 100 microAlgos. -/
def cResolvedY : Chain :=
  { market := { cOpen.market with yes_reserve := 100, resolved := 1, outcome := 1 },
    tokenBal := fun a i =>
      if a = 100 ∧ (i = 10 ∨ i = 11) then some (ASA_TOTAL_SUPPLY - 100)
      else if a = 5 ∧ i = 10 then some 100
      else if a = 5 ∧ i = 11 then some 0
      else none,
    algoBal := fun a => if a = 100 then 500 else 0,
    nextAsa := 12 }

/-- Reserves 100 YES / 300 NO, for the worked probability example. -/
def cProb : Chain :=
  { chain0 with market := { mkt0 with close_ts := 50, yes_reserve := 100, no_reserve := 300 } }

/-- A YES reserve large enough that the basis-point multiplication exceeds
the uint64 range. -/
def cBig : Chain :=
  { chain0 with market := { mkt0 with close_ts := 50, yes_reserve := 2 ^ 60 } }

/-- The market c1ex after the creator resolves it YES at time 60. -/
def cRes : Chain := okChain (resolve_market ⟨60, 1, 100⟩ 1 c1ex) chain0

/-- The chain after trader 5 claims the winnings held in cResolvedY. -/
def cClaimed : Chain := okState (claim ⟨60, 5, 100⟩ cResolvedY) chain0

/-- The chain after trader 5 buys 7 microAlgos of YES on cOpen. -/
def c5yes : Chain := okState (buy_yes ⟨10, 5, 100⟩ ⟨5, 100, 7⟩ cOpen) chain0

/-- The chain after trader 5 buys 9 microAlgos of NO on cOpen. -/
def c5no : Chain := okState (buy_no ⟨10, 5, 100⟩ ⟨5, 100, 9⟩ cOpen) chain0

/-- Chain with only the multisig slot replaced. -/
def setMs (c : Chain) (m : Addr) : Chain :=
  { c with market := { c.market with multisig := m } }

/- ── Inversion lemmas for the individual operations ─────────────────────── -/

theorem create_market_already (e : Env) (q : List Nat) (t : Nat) (ms : Addr)
    (c : Chain) (h : c.market.close_ts ≠ 0) :
    create_market e q t ms c = .error .alreadyInitialized := by
  unfold create_market
  simp [h]

theorem create_market_ok {e : Env} {q : List Nat} {t : Nat} {ms : Addr}
    {c c' : Chain} (h : create_market e q t ms c = .ok c') :
    c.market.close_ts = 0 ∧ e.now < t ∧ c'.market.close_ts = t ∧
    c'.market.creator = e.sender ∧ c'.market.multisig = ms ∧
    c'.market.yes_reserve = 0 ∧ c'.market.no_reserve = 0 ∧
    c'.market.resolved = 0 ∧ c'.market.outcome = 0 := by
  unfold create_market at h
  split_ifs at h with h1 h2 h3 h4
  · injection h with h5
    subst h5
    exact ⟨h1, h2, rfl, rfl, rfl, rfl, rfl, rfl, rfl⟩

theorem asaTransfer_ok {src dst : Addr} {asa : AsaId} {amt : Nat} {c c' : Chain}
    (h : asaTransfer src dst asa amt c = .ok c') :
    c'.market = c.market ∧ c'.algoBal = c.algoBal ∧ c'.nextAsa = c.nextAsa ∧
    (dst ≠ src →
      c'.tokenBal dst asa = some ((c.tokenBal dst asa).getD 0 + amt)) := by
  unfold asaTransfer at h
  cases hs : c.tokenBal src asa with
  | none => simp only [hs] at h; exact Except.noConfusion h
  | some sbal =>
    simp only [hs] at h
    split_ifs at h with hle
    cases hd : setBal c.tokenBal src asa (sbal - amt) dst asa with
    | none => simp only [hd] at h; exact Except.noConfusion h
    | some dbal =>
      simp only [hd] at h
      injection h with h5
      subst h5
      refine ⟨rfl, rfl, rfl, fun hne => ?_⟩
      simp only [setBal, hne, false_and, if_false] at hd
      simp [setBal, hd]

theorem send_algo_ok {e : Env} {r : Addr} {amt : Nat} {c c' : Chain}
    (h : send_algo e r amt c = .ok c') :
    c'.market = c.market ∧ c'.tokenBal = c.tokenBal ∧ c'.nextAsa = c.nextAsa ∧
    (r ≠ e.appAddr → c'.algoBal r = c.algoBal r + amt) := by
  unfold send_algo at h
  split_ifs at h with hle
  injection h with h5
  subst h5
  refine ⟨rfl, rfl, rfl, fun hne => ?_⟩
  simp [setAlgo, hne]

theorem handle_buy_yes_ok {e : Env} {amt : Nat} {buyer : Addr} {c c' : Chain}
    (h : handle_buy_yes e amt buyer c = .ok c') :
    c.market.resolved = 0 ∧ e.now < c.market.close_ts ∧ 0 < amt ∧
    c.market.yes_reserve + amt < U64 ∧
    c'.market = { c.market with yes_reserve := c.market.yes_reserve + amt } ∧
    c'.algoBal = c.algoBal ∧ c'.nextAsa = c.nextAsa ∧
    (buyer ≠ e.appAddr →
      c'.tokenBal buyer c.market.yes_asa
        = some ((c.tokenBal buyer c.market.yes_asa).getD 0 + amt)) := by
  unfold handle_buy_yes send_asa tokens_for_amount at h
  split_ifs at h with h1 h2 h3 h4
  obtain ⟨hm, ha, hn, hb⟩ := asaTransfer_ok h
  exact ⟨h1, h2, h3, h4, hm, ha, hn, hb⟩

theorem handle_buy_no_ok {e : Env} {amt : Nat} {buyer : Addr} {c c' : Chain}
    (h : handle_buy_no e amt buyer c = .ok c') :
    c.market.resolved = 0 ∧ e.now < c.market.close_ts ∧ 0 < amt ∧
    c.market.no_reserve + amt < U64 ∧
    c'.market = { c.market with no_reserve := c.market.no_reserve + amt } ∧
    c'.algoBal = c.algoBal ∧ c'.nextAsa = c.nextAsa ∧
    (buyer ≠ e.appAddr →
      c'.tokenBal buyer c.market.no_asa
        = some ((c.tokenBal buyer c.market.no_asa).getD 0 + amt)) := by
  unfold handle_buy_no send_asa tokens_for_amount at h
  split_ifs at h with h1 h2 h3 h4
  obtain ⟨hm, ha, hn, hb⟩ := asaTransfer_ok h
  exact ⟨h1, h2, h3, h4, hm, ha, hn, hb⟩

theorem buy_yes_ok {e : Env} {p : PayTxn} {c c' : Chain} {n : Nat}
    (h : buy_yes e p c = .ok (c', n)) :
    p.receiver = e.appAddr ∧ p.sender = e.sender ∧ n = p.amount ∧
    handle_buy_yes e p.amount p.sender c = .ok c' := by
  unfold buy_yes at h
  split_ifs at h with h1 h2
  cases hb : handle_buy_yes e p.amount p.sender c with
  | error er => simp only [hb] at h; exact Except.noConfusion h
  | ok cc =>
    simp only [hb] at h
    injection h with h5
    injection h5 with h6 h7
    subst h6
    exact ⟨h1, h2, h7.symm, rfl⟩

theorem buy_no_ok {e : Env} {p : PayTxn} {c c' : Chain} {n : Nat}
    (h : buy_no e p c = .ok (c', n)) :
    p.receiver = e.appAddr ∧ p.sender = e.sender ∧ n = p.amount ∧
    handle_buy_no e p.amount p.sender c = .ok c' := by
  unfold buy_no at h
  split_ifs at h with h1 h2
  cases hb : handle_buy_no e p.amount p.sender c with
  | error er => simp only [hb] at h; exact Except.noConfusion h
  | ok cc =>
    simp only [hb] at h
    injection h with h5
    injection h5 with h6 h7
    subst h6
    exact ⟨h1, h2, h7.symm, rfl⟩

theorem handle_resolve_ok {e : Env} {o : Nat} {caller : Addr} {c c' : Chain}
    (h : handle_resolve e o caller c = .ok c') :
    caller = c.market.creator ∧ c.market.resolved = 0 ∧
    c.market.close_ts ≤ e.now ∧ (o = 0 ∨ o = 1) ∧
    c' = { c with market := { c.market with resolved := 1, outcome := o } } := by
  unfold handle_resolve at h
  split_ifs at h with h1 h2 h3 h4
  injection h with h5
  exact ⟨h1, h2, h3, h4, h5.symm⟩

theorem resolve_market_ok {e : Env} {o : Nat} {c c' : Chain}
    (h : resolve_market e o c = .ok c') :
    e.sender = c.market.creator ∧ c.market.resolved = 0 ∧
    c.market.close_ts ≤ e.now ∧ (o = 0 ∨ o = 1) ∧
    c' = { c with market := { c.market with resolved := 1, outcome := o } } :=
  handle_resolve_ok h

theorem handle_claim_ok {e : Env} {claimer : Addr} {c c' : Chain}
    (h : handle_claim e claimer c = .ok c') :
    c.market.resolved = 1 ∧ c'.market = c.market ∧ c'.nextAsa = c.nextAsa := by
  unfold handle_claim at h
  split_ifs at h with h1
  cases hs : c.tokenBal claimer (winningAsa c.market) with
  | none => simp only [hs] at h; exact Except.noConfusion h
  | some bal =>
    simp only [hs] at h
    split_ifs at h with h2
    cases hb : burn_asa e (winningAsa c.market) claimer bal c with
    | error er => simp only [hb] at h; exact Except.noConfusion h
    | ok c1 =>
      simp only [hb] at h
      obtain ⟨hm1, _, hn1, _⟩ := asaTransfer_ok hb
      obtain ⟨hm2, _, hn2, _⟩ := send_algo_ok h
      exact ⟨h1, hm2.trans hm1, hn2.trans hn1⟩

theorem claim_ok {e : Env} {c c' : Chain} {n : Nat}
    (h : claim e c = .ok (c', n)) :
    c.market.resolved = 1 ∧ c'.market = c.market ∧ c'.nextAsa = c.nextAsa := by
  unfold claim at h
  cases hc : handle_claim e e.sender c with
  | error er => simp only [hc] at h; exact Except.noConfusion h
  | ok c1 =>
    simp only [hc] at h
    injection h with h5
    injection h5 with h6 h7
    subst h6
    exact handle_claim_ok hc

/- ── Single-step trace lemmas ───────────────────────────────────────────── -/

theorem run1_step (c : Chain) (a : Action) (h : c.market.close_ts ≠ 0) :
    (run1 c a).market.close_ts = c.market.close_ts
    ∧ reserveSum (run1 c a) = reserveSum c + acceptedAmount c a
    ∧ c.market.yes_reserve ≤ (run1 c a).market.yes_reserve
    ∧ c.market.no_reserve ≤ (run1 c a).market.no_reserve
    ∧ (acceptedAmount c a ≠ 0 →
        c.market.resolved = 0 ∧ a.now < c.market.close_ts ∧ 0 < acceptedAmount c a)
    ∧ (c.market.resolved = 1 →
        (run1 c a).market.resolved = 1 ∧ (run1 c a).market.outcome = c.market.outcome) := by
  cases a with
  | create e q t ms =>
    have hr : run1 c (Action.create e q t ms) = c := by
      simp only [run1, applyAction, create_market_already e q t ms c h]
    rw [hr]
    simp [acceptedAmount, reserveSum]
  | buyYes e p =>
    cases hb : buy_yes e p c with
    | error er =>
      have hr : run1 c (Action.buyYes e p) = c := by
        simp only [run1, applyAction, hb, Except.map]
      have hacc : acceptedAmount c (Action.buyYes e p) = 0 := by
        simp [acceptedAmount, hb]
      rw [hr, hacc]
      simp
    | ok pr =>
      obtain ⟨c', n⟩ := pr
      have hr : run1 c (Action.buyYes e p) = c' := by
        simp only [run1, applyAction, hb, Except.map]
      obtain ⟨h1, h2, h3, h4⟩ := buy_yes_ok hb
      obtain ⟨g1, g2, g3, g4, g5, g6, g7, g8⟩ := handle_buy_yes_ok h4
      have hacc : acceptedAmount c (Action.buyYes e p) = p.amount := by
        simp [acceptedAmount, hb]
      rw [hr, hacc]
      refine ⟨?_, ?_, ?_, ?_, fun hne => ⟨g1, g2, g3⟩, fun hres => ?_⟩
      · rw [g5]
      · simp [reserveSum, g5]
        omega
      · rw [g5]
        exact Nat.le_add_right _ _
      · exact le_of_eq (by rw [g5])
      · rw [g1] at hres
        simp at hres
  | buyNo e p =>
    cases hb : buy_no e p c with
    | error er =>
      have hr : run1 c (Action.buyNo e p) = c := by
        simp only [run1, applyAction, hb, Except.map]
      have hacc : acceptedAmount c (Action.buyNo e p) = 0 := by
        simp [acceptedAmount, hb]
      rw [hr, hacc]
      simp
    | ok pr =>
      obtain ⟨c', n⟩ := pr
      have hr : run1 c (Action.buyNo e p) = c' := by
        simp only [run1, applyAction, hb, Except.map]
      obtain ⟨h1, h2, h3, h4⟩ := buy_no_ok hb
      obtain ⟨g1, g2, g3, g4, g5, g6, g7, g8⟩ := handle_buy_no_ok h4
      have hacc : acceptedAmount c (Action.buyNo e p) = p.amount := by
        simp [acceptedAmount, hb]
      rw [hr, hacc]
      refine ⟨?_, ?_, ?_, ?_, fun hne => ⟨g1, g2, g3⟩, fun hres => ?_⟩
      · rw [g5]
      · simp [reserveSum, g5]
        omega
      · exact le_of_eq (by rw [g5])
      · rw [g5]
        exact Nat.le_add_right _ _
      · rw [g1] at hres
        simp at hres
  | resolve e o =>
    cases hb : resolve_market e o c with
    | error er =>
      have hr : run1 c (Action.resolve e o) = c := by
        simp only [run1, applyAction, hb]
      rw [hr]
      simp [acceptedAmount, reserveSum]
    | ok c' =>
      have hr : run1 c (Action.resolve e o) = c' := by
        simp only [run1, applyAction, hb]
      obtain ⟨h1, h2, h3, h4, h5⟩ := resolve_market_ok hb
      subst h5
      rw [hr]
      refine ⟨rfl, ?_, le_refl _, le_refl _, fun hne => ?_, fun hres => ?_⟩
      · simp [acceptedAmount, reserveSum]
      · simp [acceptedAmount] at hne
      · rw [h2] at hres
        exact absurd hres (by decide)
  | claimBy e =>
    cases hb : claim e c with
    | error er =>
      have hr : run1 c (Action.claimBy e) = c := by
        simp only [run1, applyAction, hb, Except.map]
      rw [hr]
      simp [acceptedAmount, reserveSum]
    | ok pr =>
      obtain ⟨c', n⟩ := pr
      have hr : run1 c (Action.claimBy e) = c' := by
        simp only [run1, applyAction, hb, Except.map]
      obtain ⟨h1, h2, h3⟩ := claim_ok hb
      rw [hr, h2]
      refine ⟨rfl, ?_, le_refl _, le_refl _, fun hne => ?_, fun hres => ⟨h1, rfl⟩⟩
      · simp [acceptedAmount, reserveSum, h2]
      · simp [acceptedAmount] at hne


/- ── Whole-trace lemmas ─────────────────────────────────────────────────── -/

theorem run1_close_ts (c : Chain) (a : Action) (h : c.market.close_ts ≠ 0) :
    (run1 c a).market.close_ts = c.market.close_ts :=
  (run1_step c a h).1

theorem run_close_ts (c : Chain) (as : List Action) (h : c.market.close_ts ≠ 0) :
    (run c as).market.close_ts = c.market.close_ts := by
  induction as generalizing c with
  | nil => rfl
  | cons a rest ih =>
    have h1 := run1_close_ts c a h
    have h2 : (run1 c a).market.close_ts ≠ 0 := by rw [h1]; exact h
    simp only [run]
    rw [ih (run1 c a) h2, h1]

theorem run_sum (c : Chain) (as : List Action) (h : c.market.close_ts ≠ 0) :
    reserveSum (run c as) = reserveSum c + acceptedSum c as := by
  induction as generalizing c with
  | nil => simp [run, acceptedSum]
  | cons a rest ih =>
    have h1 := run1_close_ts c a h
    have h2 : (run1 c a).market.close_ts ≠ 0 := by rw [h1]; exact h
    simp only [run, acceptedSum]
    rw [ih (run1 c a) h2, (run1_step c a h).2.1]
    omega

theorem run_yes_mono (c : Chain) (as : List Action) (h : c.market.close_ts ≠ 0) :
    c.market.yes_reserve ≤ (run c as).market.yes_reserve := by
  induction as generalizing c with
  | nil => exact le_refl _
  | cons a rest ih =>
    have h1 := run1_close_ts c a h
    have h2 : (run1 c a).market.close_ts ≠ 0 := by rw [h1]; exact h
    simp only [run]
    exact le_trans (run1_step c a h).2.2.1 (ih (run1 c a) h2)

theorem run_no_mono (c : Chain) (as : List Action) (h : c.market.close_ts ≠ 0) :
    c.market.no_reserve ≤ (run c as).market.no_reserve := by
  induction as generalizing c with
  | nil => exact le_refl _
  | cons a rest ih =>
    have h1 := run1_close_ts c a h
    have h2 : (run1 c a).market.close_ts ≠ 0 := by rw [h1]; exact h
    simp only [run]
    exact le_trans (run1_step c a h).2.2.2.1 (ih (run1 c a) h2)

theorem run_append (c : Chain) (as bs : List Action) :
    run c (as ++ bs) = run (run c as) bs := by
  induction as generalizing c with
  | nil => rfl
  | cons a rest ih =>
    simp only [List.cons_append, run]
    exact ih (run1 c a)

theorem run_resolved (c : Chain) (as : List Action)
    (h0 : c.market.close_ts ≠ 0) (h1 : c.market.resolved = 1) :
    (run c as).market.resolved = 1 ∧ (run c as).market.outcome = c.market.outcome := by
  induction as generalizing c with
  | nil => exact ⟨h1, rfl⟩
  | cons a rest ih =>
    have hc := run1_close_ts c a h0
    have hclose : (run1 c a).market.close_ts ≠ 0 := by rw [hc]; exact h0
    obtain ⟨hr, ho⟩ := (run1_step c a h0).2.2.2.2.2 h1
    simp only [run]
    obtain ⟨ih1, ih2⟩ := ih (run1 c a) hclose hr
    exact ⟨ih1, ih2.trans ho⟩

/- ── The multisig slot is write-only: scrub/setMs machinery ─────────────── -/

@[simp] theorem setMs_market_question (c : Chain) (m : Addr) :
    (setMs c m).market.question = c.market.question := rfl

@[simp] theorem setMs_market_creator (c : Chain) (m : Addr) :
    (setMs c m).market.creator = c.market.creator := rfl

@[simp] theorem setMs_market_close_ts (c : Chain) (m : Addr) :
    (setMs c m).market.close_ts = c.market.close_ts := rfl

@[simp] theorem setMs_market_yes_asa (c : Chain) (m : Addr) :
    (setMs c m).market.yes_asa = c.market.yes_asa := rfl

@[simp] theorem setMs_market_no_asa (c : Chain) (m : Addr) :
    (setMs c m).market.no_asa = c.market.no_asa := rfl

@[simp] theorem setMs_market_yes_reserve (c : Chain) (m : Addr) :
    (setMs c m).market.yes_reserve = c.market.yes_reserve := rfl

@[simp] theorem setMs_market_no_reserve (c : Chain) (m : Addr) :
    (setMs c m).market.no_reserve = c.market.no_reserve := rfl

@[simp] theorem setMs_market_resolved (c : Chain) (m : Addr) :
    (setMs c m).market.resolved = c.market.resolved := rfl

@[simp] theorem setMs_market_outcome (c : Chain) (m : Addr) :
    (setMs c m).market.outcome = c.market.outcome := rfl

@[simp] theorem setMs_tokenBal (c : Chain) (m : Addr) :
    (setMs c m).tokenBal = c.tokenBal := rfl

@[simp] theorem setMs_algoBal (c : Chain) (m : Addr) :
    (setMs c m).algoBal = c.algoBal := rfl

@[simp] theorem setMs_nextAsa (c : Chain) (m : Addr) :
    (setMs c m).nextAsa = c.nextAsa := rfl

@[simp] theorem winningAsa_setMs (c : Chain) (m : Addr) :
    winningAsa (setMs c m).market = winningAsa c.market := rfl

theorem scrub_setMs (c : Chain) (m : Addr) : scrubMs (setMs c m) = scrubMs c := rfl

theorem scrub_eq_setMs {c d : Chain} (h : scrubMs c = scrubMs d) :
    d = setMs c d.market.multisig := by
  obtain ⟨mc, tc, ac, nc⟩ := c
  obtain ⟨md, td, ad, nd⟩ := d
  obtain ⟨q1, c1, m1, t1, y1, n1, yr1, nr1, r1, o1⟩ := mc
  obtain ⟨q2, c2, m2, t2, y2, n2, yr2, nr2, r2, o2⟩ := md
  simp only [scrubMs, setMs, Chain.mk.injEq, MarketState.mk.injEq] at h ⊢
  simp_all

theorem create_market_setMs (e : Env) (q : List Nat) (t : Nat) (ms : Addr)
    (c : Chain) (m : Addr) :
    create_market e q t ms (setMs c m) = create_market e q t ms c := by
  unfold create_market
  simp only [setMs_market_close_ts]
  split_ifs <;> rfl

theorem asaTransfer_setMs (src dst : Addr) (asa : AsaId) (amt : Nat)
    (c : Chain) (m : Addr) :
    asaTransfer src dst asa amt (setMs c m)
      = (asaTransfer src dst asa amt c).map (fun st => setMs st m) := by
  unfold asaTransfer
  simp only [setMs_tokenBal]
  cases c.tokenBal src asa with
  | none => rfl
  | some sbal =>
    simp only
    split_ifs with hle
    · cases setBal c.tokenBal src asa (sbal - amt) dst asa with
      | none => rfl
      | some dbal => rfl
    · rfl

theorem send_algo_setMs (e : Env) (r : Addr) (amt : Nat) (c : Chain) (m : Addr) :
    send_algo e r amt (setMs c m) = (send_algo e r amt c).map (fun st => setMs st m) := by
  unfold send_algo
  simp only [setMs_algoBal]
  split_ifs <;> rfl

theorem handle_buy_yes_setMs (e : Env) (amt : Nat) (buyer : Addr) (c : Chain) (m : Addr) :
    handle_buy_yes e amt buyer (setMs c m)
      = (handle_buy_yes e amt buyer c).map (fun st => setMs st m) := by
  unfold handle_buy_yes send_asa
  simp only [setMs_market_resolved, setMs_market_close_ts, setMs_market_yes_reserve,
    setMs_market_yes_asa]
  split_ifs
  · exact asaTransfer_setMs e.appAddr buyer c.market.yes_asa (tokens_for_amount amt)
      { c with market := { c.market with yes_reserve := c.market.yes_reserve + amt } } m
  all_goals rfl

theorem handle_buy_no_setMs (e : Env) (amt : Nat) (buyer : Addr) (c : Chain) (m : Addr) :
    handle_buy_no e amt buyer (setMs c m)
      = (handle_buy_no e amt buyer c).map (fun st => setMs st m) := by
  unfold handle_buy_no send_asa
  simp only [setMs_market_resolved, setMs_market_close_ts, setMs_market_no_reserve,
    setMs_market_no_asa]
  split_ifs
  · exact asaTransfer_setMs e.appAddr buyer c.market.no_asa (tokens_for_amount amt)
      { c with market := { c.market with no_reserve := c.market.no_reserve + amt } } m
  all_goals rfl

theorem buy_yes_setMs (e : Env) (p : PayTxn) (c : Chain) (m : Addr) :
    buy_yes e p (setMs c m) = (buy_yes e p c).map (fun pr => (setMs pr.1 m, pr.2)) := by
  unfold buy_yes
  rw [handle_buy_yes_setMs]
  split_ifs
  · cases handle_buy_yes e p.amount p.sender c <;> rfl
  all_goals rfl

theorem buy_no_setMs (e : Env) (p : PayTxn) (c : Chain) (m : Addr) :
    buy_no e p (setMs c m) = (buy_no e p c).map (fun pr => (setMs pr.1 m, pr.2)) := by
  unfold buy_no
  rw [handle_buy_no_setMs]
  split_ifs
  · cases handle_buy_no e p.amount p.sender c <;> rfl
  all_goals rfl

theorem resolve_market_setMs (e : Env) (o : Nat) (c : Chain) (m : Addr) :
    resolve_market e o (setMs c m) = (resolve_market e o c).map (fun st => setMs st m) := by
  unfold resolve_market handle_resolve
  simp only [setMs_market_creator, setMs_market_resolved, setMs_market_close_ts]
  split_ifs <;> rfl

theorem handle_claim_setMs (e : Env) (claimer : Addr) (c : Chain) (m : Addr) :
    handle_claim e claimer (setMs c m)
      = (handle_claim e claimer c).map (fun st => setMs st m) := by
  unfold handle_claim burn_asa
  simp only [setMs_market_resolved, setMs_tokenBal, winningAsa_setMs]
  split_ifs with h1
  · cases c.tokenBal claimer (winningAsa c.market) with
    | none => rfl
    | some bal =>
      simp only
      split_ifs with h2
      · rw [asaTransfer_setMs]
        cases asaTransfer claimer e.appAddr (winningAsa c.market) bal c with
        | error er => rfl
        | ok c1 => exact send_algo_setMs e claimer bal c1 m
      · rfl
  · rfl

theorem claim_setMs (e : Env) (c : Chain) (m : Addr) :
    claim e (setMs c m) = (claim e c).map (fun pr => (setMs pr.1 m, pr.2)) := by
  unfold claim
  rw [handle_claim_setMs]
  cases handle_claim e e.sender c with
  | error er => rfl
  | ok c1 => rfl

theorem create_market_ms_scrub (e : Env) (q : List Nat) (t : Nat)
    (ms1 ms2 : Addr) (c : Chain) :
    (create_market e q t ms1 c).map scrubMs = (create_market e q t ms2 c).map scrubMs := by
  unfold create_market
  split_ifs <;> rfl

theorem run1_setMs (c : Chain) (a : Action) (m : Addr) :
    scrubMs (run1 (setMs c m) a) = scrubMs (run1 c a) := by
  cases a with
  | create e q t ms =>
    simp only [run1, applyAction]
    rw [create_market_setMs]
    cases create_market e q t ms c with
    | error er => rfl
    | ok c1 => rfl
  | buyYes e p =>
    simp only [run1, applyAction]
    rw [buy_yes_setMs]
    cases buy_yes e p c with
    | error er => rfl
    | ok pr => rfl
  | buyNo e p =>
    simp only [run1, applyAction]
    rw [buy_no_setMs]
    cases buy_no e p c with
    | error er => rfl
    | ok pr => rfl
  | resolve e o =>
    simp only [run1, applyAction]
    rw [resolve_market_setMs]
    cases resolve_market e o c with
    | error er => rfl
    | ok c1 => rfl
  | claimBy e =>
    simp only [run1, applyAction]
    rw [claim_setMs]
    cases claim e c with
    | error er => rfl
    | ok pr => rfl

theorem run1_scrub_congr (a : Action) {c d : Chain} (h : scrubMs c = scrubMs d) :
    scrubMs (run1 c a) = scrubMs (run1 d a) := by
  rw [scrub_eq_setMs h, run1_setMs]

theorem run_scrub_congr (as : List Action) {c d : Chain} (h : scrubMs c = scrubMs d) :
    scrubMs (run c as) = scrubMs (run d as) := by
  induction as generalizing c d with
  | nil => exact h
  | cons a rest ih =>
    simp only [run]
    exact ih (run1_scrub_congr a h)

/- ── Failure classification helpers ─────────────────────────────────────── -/

theorem resolve_ok_sender {e : Env} {o : Nat} {c : Chain}
    (h : isOkRes (resolve_market e o c) = true) : e.sender = c.market.creator := by
  unfold resolve_market handle_resolve at h
  split_ifs at h with h1 h2 h3 h4
  · exact h1
  all_goals simp [isOkRes] at h

theorem resolve_not_creator {e : Env} {o : Nat} {c : Chain}
    (h : e.sender ≠ c.market.creator) :
    resolve_market e o c = .error .notCreator := by
  unfold resolve_market handle_resolve
  simp [h]

theorem resolve_already {e : Env} {o : Nat} {c : Chain}
    (hs : e.sender = c.market.creator) (h1 : c.market.resolved = 1) :
    resolve_market e o c = .error .alreadyResolved := by
  unfold resolve_market handle_resolve
  simp [hs, h1]

theorem resolve_fails_early (e : Env) (o : Nat) (c : Chain)
    (h : e.now < c.market.close_ts ∨ (o ≠ 0 ∧ o ≠ 1)) :
    isOkRes (resolve_market e o c) = false := by
  unfold resolve_market handle_resolve
  split_ifs with h1 h2 h3 h4
  · exfalso
    rcases h with h | h
    · omega
    · rcases h4 with h4 | h4
      · exact h.1 h4
      · exact h.2 h4
  all_goals rfl

theorem resolve_resolved_fails (e : Env) (o : Nat) (c : Chain)
    (h1 : c.market.resolved = 1) :
    isOkRes (resolve_market e o c) = false := by
  unfold resolve_market handle_resolve
  split_ifs with g1 g2 g3 g4
  · exfalso
    omega
  all_goals rfl

theorem handle_buy_yes_closed (e : Env) (amt : Nat) (buyer : Addr) (c : Chain)
    (h : c.market.close_ts ≤ e.now ∨ c.market.resolved ≠ 0) :
    handle_buy_yes e amt buyer c
      = .error (if c.market.resolved = 0 then .tradingClosed else .alreadyResolved) := by
  unfold handle_buy_yes
  by_cases hr : c.market.resolved = 0
  · have hc : c.market.close_ts ≤ e.now := by
      rcases h with h | h
      · exact h
      · exact absurd hr h
    have hn : ¬ e.now < c.market.close_ts := by omega
    simp [hr, hn]
  · simp [hr]

theorem handle_buy_no_closed (e : Env) (amt : Nat) (buyer : Addr) (c : Chain)
    (h : c.market.close_ts ≤ e.now ∨ c.market.resolved ≠ 0) :
    handle_buy_no e amt buyer c
      = .error (if c.market.resolved = 0 then .tradingClosed else .alreadyResolved) := by
  unfold handle_buy_no
  by_cases hr : c.market.resolved = 0
  · have hc : c.market.close_ts ≤ e.now := by
      rcases h with h | h
      · exact h
      · exact absurd hr h
    have hn : ¬ e.now < c.market.close_ts := by omega
    simp [hr, hn]
  · simp [hr]

/- ── Claim theorems ─────────────────────────────────────────────────────── -/

/-- C1 counterexample: the claim says resolve succeeds only for the stored
multisig_addr (the resolverIdentity) and that anyone else is rejected.  On
the market created with creator 1 and multisig_addr 2, a resolve call by
identity 2 (the recorded multisig) is rejected as Unauthorized, while a
resolve call by identity 1, which differs from the stored multisig, succeeds. -/
theorem resolve_multisig_rejected_cex :
    c1ex.market.multisig = 2
    ∧ c1ex.market.creator = 1
    ∧ resolve_market ⟨60, 2, 100⟩ 1 c1ex = .error .notCreator
    ∧ isOkRes (resolve_market ⟨60, 1, 100⟩ 1 c1ex) = true
    ∧ (1 : Nat) ≠ 2 :=
  ⟨rfl, rfl, rfl, rfl, by decide⟩

/-- C1 (amended): resolve_market succeeds only when the caller equals the
stored creator field (the deployer identity recorded by create_market), not
the multisig_addr; any other caller is rejected with Unauthorized (the
assert comment: only creator may call this) and, the call failing, no state
changes. -/
theorem resolve_requires_creator (e : Env) (o : Nat) (c : Chain) :
    (isOkRes (resolve_market e o c) = true → e.sender = c.market.creator)
    ∧ (e.sender ≠ c.market.creator → resolve_market e o c = .error .notCreator) :=
  ⟨fun h => resolve_ok_sender h, fun h => resolve_not_creator h⟩

/-- C1 witness: the amended theorem evaluated on the concretely created
market c1ex with caller 2. -/
theorem resolve_requires_creator_witness :
    (isOkRes (resolve_market ⟨60, 2, 100⟩ 1 c1ex) = true → (2 : Nat) = c1ex.market.creator)
    ∧ ((2 : Nat) ≠ c1ex.market.creator →
        resolve_market ⟨60, 2, 100⟩ 1 c1ex = .error .notCreator) :=
  resolve_requires_creator ⟨60, 2, 100⟩ 1 c1ex

/-- C2 (code bug, evaluated at the failing input): in cResolvedY trader 5
holds 100 winning YES tokens; claim transfers exactly 100 microAlgos to the
trader, zeroes the winning-token balance, and a second claim fails with
NoWinningHolding (zero winning tokens held) — but the ABI return value is 0
rather than the paid 100, because app.claim re-reads the balance after
handle_claim has already clawed the tokens back, contrary to its own
comment (load before claim burns tokens) and docstring (returns payout
amount). -/
theorem claim_returns_zero_bug :
    cResolvedY.tokenBal 5 10 = some 100
    ∧ cResolvedY.market.resolved = 1
    ∧ cResolvedY.market.outcome = 1
    ∧ claim ⟨60, 5, 100⟩ cResolvedY = .ok (cClaimed, 0)
    ∧ cClaimed.algoBal 5 = cResolvedY.algoBal 5 + 100
    ∧ cClaimed.tokenBal 5 10 = some 0
    ∧ claim ⟨61, 5, 100⟩ cClaimed = .error .zeroBalance
    ∧ (0 : Nat) ≠ 100 :=
  ⟨rfl, rfl, rfl, rfl, rfl, rfl, rfl, by decide⟩

/-- C3 counterexample: the claim says a second resolve call always fails
with AlreadyResolved.  On the resolved market cRes (resolved by creator 1),
a second resolve call by identity 3 fails with Unauthorized (only creator
may call this), not AlreadyResolved. -/
theorem second_resolve_stranger_cex :
    isOkRes (resolve_market ⟨60, 1, 100⟩ 1 c1ex) = true
    ∧ cRes.market.resolved = 1
    ∧ resolve_market ⟨70, 3, 100⟩ 0 cRes = .error .notCreator
    ∧ Err.notCreator ≠ Err.alreadyResolved :=
  ⟨rfl, rfl, rfl, by decide⟩

/-- C3 (amended): resolve always fails before closeTimestamp or with an
outcome outside 0,1; after one successful resolve of an initialised market
(close_ts nonzero), resolved stays 1 and outcome never changes under any
subsequent sequence of operations, every further resolve call fails, and a
second resolve call fails with AlreadyResolved when made by the creator
(a non-creator caller fails with Unauthorized instead). -/
theorem resolve_permanence (e : Env) (o : Nat) (c c' : Chain)
    (hok : resolve_market e o c = .ok c') (hts : c.market.close_ts ≠ 0) :
    (∀ e2 o2 c2, (e2.now < c2.market.close_ts ∨ (o2 ≠ 0 ∧ o2 ≠ 1)) →
        isOkRes (resolve_market e2 o2 c2) = false)
    ∧ c'.market.resolved = 1
    ∧ c'.market.outcome = o
    ∧ (∀ as, (run c' as).market.resolved = 1 ∧ (run c' as).market.outcome = o)
    ∧ (∀ e2 o2, e2.sender = c'.market.creator →
        resolve_market e2 o2 c' = .error .alreadyResolved)
    ∧ (∀ e2 o2, isOkRes (resolve_market e2 o2 c') = false)
    ∧ (∀ as e2 o2, e2.sender = (run c' as).market.creator →
        resolve_market e2 o2 (run c' as) = .error .alreadyResolved) := by
  obtain ⟨g1, g2, g3, g4, g5⟩ := resolve_market_ok hok
  subst g5
  have hres : ({ c with market := { c.market with resolved := 1, outcome := o } } :
      Chain).market.resolved = 1 := rfl
  have hcl : ({ c with market := { c.market with resolved := 1, outcome := o } } :
      Chain).market.close_ts ≠ 0 := hts
  refine ⟨resolve_fails_early, rfl, rfl, ?_, ?_, ?_, ?_⟩
  · intro as
    exact run_resolved _ as hcl hres
  · intro e2 o2 hs
    exact resolve_already hs hres
  · intro e2 o2
    exact resolve_resolved_fails e2 o2 _ hres
  · intro as e2 o2 hs
    exact resolve_already hs (run_resolved _ as hcl hres).1

/-- C3 witness: the amended theorem instantiated on the concrete resolve of
c1ex at time 60, with a creator-issued second resolve failing
AlreadyResolved. -/
theorem resolve_permanence_witness :
    resolve_market ⟨60, 1, 100⟩ 1 c1ex = .ok cRes
    ∧ c1ex.market.close_ts ≠ 0
    ∧ cRes.market.resolved = 1
    ∧ resolve_market ⟨70, 1, 100⟩ 0 cRes = .error .alreadyResolved := by
  have h := resolve_permanence ⟨60, 1, 100⟩ 1 c1ex cRes rfl (by decide)
  exact ⟨rfl, by decide, h.2.1, h.2.2.2.2.1 ⟨70, 1, 100⟩ 0 (by decide)⟩

/-- C4: starting from a freshly created market (create_market initialises
close_ts to a nonzero deadline and both reserves to 0, as the first conjunct
records), along every sequence of operations the two reserves sum exactly to
the amounts accepted by successful buys, each reserve is monotone along the
trace, and any step that changes the reserve sum is one taken while
resolved = 0 and strictly before close_ts, and increases it. -/
theorem reserve_accounting (c1 : Chain) (h1 : c1.market.close_ts ≠ 0)
    (h2 : c1.market.yes_reserve = 0) (h3 : c1.market.no_reserve = 0) :
    (∀ e q t ms c0 c', create_market e q t ms c0 = .ok c' →
        c'.market.close_ts ≠ 0 ∧ c'.market.yes_reserve = 0 ∧ c'.market.no_reserve = 0)
    ∧ (∀ as, (run c1 as).market.yes_reserve + (run c1 as).market.no_reserve
        = acceptedSum c1 as)
    ∧ (∀ as bs, (run c1 as).market.yes_reserve ≤ (run c1 (as ++ bs)).market.yes_reserve
        ∧ (run c1 as).market.no_reserve ≤ (run c1 (as ++ bs)).market.no_reserve)
    ∧ (∀ as a, reserveSum (run1 (run c1 as) a) ≠ reserveSum (run c1 as) →
        (run c1 as).market.resolved = 0
        ∧ a.now < (run c1 as).market.close_ts
        ∧ reserveSum (run c1 as) < reserveSum (run1 (run c1 as) a)) := by
  refine ⟨?_, ?_, ?_, ?_⟩
  · intro e q t ms c0 c' hc
    obtain ⟨g1, g2, g3, g4, g5, g6, g7, g8, g9⟩ := create_market_ok hc
    exact ⟨by omega, g6, g7⟩
  · intro as
    have hs := run_sum c1 as h1
    simp only [reserveSum, h2, h3] at hs
    omega
  · intro as bs
    have hcl : (run c1 as).market.close_ts ≠ 0 := by
      rw [run_close_ts c1 as h1]; exact h1
    rw [run_append]
    exact ⟨run_yes_mono (run c1 as) bs hcl, run_no_mono (run c1 as) bs hcl⟩
  · intro as a hne
    have hcl : (run c1 as).market.close_ts ≠ 0 := by
      rw [run_close_ts c1 as h1]; exact h1
    have hstep := run1_step (run c1 as) a hcl
    have hacc : acceptedAmount (run c1 as) a ≠ 0 := by
      intro h0
      have hsum := hstep.2.1
      rw [h0] at hsum
      exact hne (by omega)
    obtain ⟨k1, k2, k3⟩ := hstep.2.2.2.2.1 hacc
    refine ⟨k1, k2, ?_⟩
    rw [hstep.2.1]
    omega

/-- C4 witness: the accounting statement instantiated on the concrete fresh
market cOpen. -/
theorem reserve_accounting_witness :
    cOpen.market.close_ts ≠ 0
    ∧ cOpen.market.yes_reserve = 0
    ∧ cOpen.market.no_reserve = 0
    ∧ ((∀ e q t ms c0 c', create_market e q t ms c0 = .ok c' →
        c'.market.close_ts ≠ 0 ∧ c'.market.yes_reserve = 0 ∧ c'.market.no_reserve = 0)
    ∧ (∀ as, (run cOpen as).market.yes_reserve + (run cOpen as).market.no_reserve
        = acceptedSum cOpen as)
    ∧ (∀ as bs, (run cOpen as).market.yes_reserve ≤ (run cOpen (as ++ bs)).market.yes_reserve
        ∧ (run cOpen as).market.no_reserve ≤ (run cOpen (as ++ bs)).market.no_reserve)
    ∧ (∀ as a, reserveSum (run1 (run cOpen as) a) ≠ reserveSum (run cOpen as) →
        (run cOpen as).market.resolved = 0
        ∧ a.now < (run cOpen as).market.close_ts
        ∧ reserveSum (run cOpen as) < reserveSum (run1 (run cOpen as) a))) :=
  ⟨by decide, rfl, rfl, reserve_accounting cOpen (by decide) rfl rfl⟩

/-- C5: a successful buy on either side requires a positive amount and an
open, unresolved market; it adds exactly the paid amount to that side
reserve and no other reserve, issues exactly amount tokens of that side to
the paying sender (1:1 via tokens_for_amount, no rounding, no fee), and
returns the amount as the token count.  The sender of an application call
is a signing account, hence distinct from the application address. -/
theorem buy_one_to_one (e : Env) (p : PayTxn) (c c' : Chain) (n : Nat)
    (hself : e.sender ≠ e.appAddr) :
    (buy_yes e p c = .ok (c', n) →
      0 < p.amount ∧ c.market.resolved = 0 ∧ e.now < c.market.close_ts
      ∧ c'.market.yes_reserve = c.market.yes_reserve + p.amount
      ∧ c'.market.no_reserve = c.market.no_reserve
      ∧ n = p.amount
      ∧ tokens_for_amount p.amount = p.amount
      ∧ c'.tokenBal p.sender c.market.yes_asa
          = some ((c.tokenBal p.sender c.market.yes_asa).getD 0 + p.amount))
    ∧ (buy_no e p c = .ok (c', n) →
      0 < p.amount ∧ c.market.resolved = 0 ∧ e.now < c.market.close_ts
      ∧ c'.market.no_reserve = c.market.no_reserve + p.amount
      ∧ c'.market.yes_reserve = c.market.yes_reserve
      ∧ n = p.amount
      ∧ tokens_for_amount p.amount = p.amount
      ∧ c'.tokenBal p.sender c.market.no_asa
          = some ((c.tokenBal p.sender c.market.no_asa).getD 0 + p.amount)) := by
  constructor
  · intro h
    obtain ⟨h1, h2, h3, h4⟩ := buy_yes_ok h
    obtain ⟨g1, g2, g3, g4, g5, g6, g7, g8⟩ := handle_buy_yes_ok h4
    have hb : p.sender ≠ e.appAddr := by rw [h2]; exact hself
    refine ⟨g3, g1, g2, ?_, ?_, h3, rfl, g8 hb⟩
    · rw [g5]
    · rw [g5]
  · intro h
    obtain ⟨h1, h2, h3, h4⟩ := buy_no_ok h
    obtain ⟨g1, g2, g3, g4, g5, g6, g7, g8⟩ := handle_buy_no_ok h4
    have hb : p.sender ≠ e.appAddr := by rw [h2]; exact hself
    refine ⟨g3, g1, g2, ?_, ?_, h3, rfl, g8 hb⟩
    · rw [g5]
    · rw [g5]

/-- C5 witness: concrete successful YES and NO buys by trader 5 on cOpen,
with the effects derived by the theorem. -/
theorem buy_one_to_one_witness :
    ((5 : Nat) ≠ (100 : Nat))
    ∧ buy_yes ⟨10, 5, 100⟩ ⟨5, 100, 7⟩ cOpen = .ok (c5yes, 7)
    ∧ c5yes.market.yes_reserve = 7
    ∧ c5yes.tokenBal 5 10 = some 7
    ∧ buy_no ⟨10, 5, 100⟩ ⟨5, 100, 9⟩ cOpen = .ok (c5no, 9)
    ∧ c5no.market.no_reserve = 9
    ∧ c5no.tokenBal 5 11 = some 9 := by
  have hy := (buy_one_to_one ⟨10, 5, 100⟩ ⟨5, 100, 7⟩ cOpen c5yes 7 (by decide)).1 rfl
  have hn := (buy_one_to_one ⟨10, 5, 100⟩ ⟨5, 100, 9⟩ cOpen c5no 9 (by decide)).2 rfl
  refine ⟨by decide, rfl, ?_, ?_, rfl, ?_, ?_⟩
  · exact hy.2.2.2.1.trans (by decide)
  · exact hy.2.2.2.2.2.2.2
  · exact hn.2.2.2.1.trans (by decide)
  · exact hn.2.2.2.2.2.2.2

/-- C6: with a well-formed bundled payment (receiver is the contract, sender
is the caller), a buy on either side always fails once now is at or past
close_ts or once the market is resolved, whatever the amount; the reported
abort is the trading-window one when unresolved and the already-resolved one
otherwise — the two conditions the specification groups as TradingClosed —
and the failed call leaves the chain, hence both reserves, untouched. -/
theorem buy_fails_when_closed (e : Env) (p : PayTxn) (c : Chain)
    (h1 : p.receiver = e.appAddr) (h2 : p.sender = e.sender)
    (h : c.market.close_ts ≤ e.now ∨ c.market.resolved ≠ 0) :
    buy_yes e p c
      = .error (if c.market.resolved = 0 then .tradingClosed else .alreadyResolved)
    ∧ buy_no e p c
      = .error (if c.market.resolved = 0 then .tradingClosed else .alreadyResolved) := by
  constructor
  · unfold buy_yes
    rw [handle_buy_yes_closed e p.amount p.sender c h]
    simp [h1, h2]
  · unfold buy_no
    rw [handle_buy_no_closed e p.amount p.sender c h]
    simp [h1, h2]

/-- C6 witness: at the deadline (time 50) both buys on cOpen fail with the
trading-window abort; on the resolved market cResolvedY, even before the
deadline (time 40), both buys fail with the already-resolved abort. -/
theorem buy_fails_when_closed_witness :
    (cOpen.market.close_ts ≤ 50 ∨ cOpen.market.resolved ≠ 0)
    ∧ buy_yes ⟨50, 5, 100⟩ ⟨5, 100, 33⟩ cOpen = .error .tradingClosed
    ∧ buy_no ⟨50, 5, 100⟩ ⟨5, 100, 33⟩ cOpen = .error .tradingClosed
    ∧ (cResolvedY.market.close_ts ≤ 40 ∨ cResolvedY.market.resolved ≠ 0)
    ∧ buy_yes ⟨40, 5, 100⟩ ⟨5, 100, 33⟩ cResolvedY = .error .alreadyResolved
    ∧ buy_no ⟨40, 5, 100⟩ ⟨5, 100, 33⟩ cResolvedY = .error .alreadyResolved := by
  have hA := buy_fails_when_closed ⟨50, 5, 100⟩ ⟨5, 100, 33⟩ cOpen rfl rfl
    (Or.inl (by decide))
  have hB := buy_fails_when_closed ⟨40, 5, 100⟩ ⟨5, 100, 33⟩ cResolvedY rfl rfl
    (Or.inr (by decide))
  exact ⟨Or.inl (by decide), hA.1, hA.2, Or.inr (by decide), hB.1, hB.2⟩

/-- C7: a successful create_market leaves close_ts nonzero (the initialised
flag), and every later create_market call on that market — immediately or
after any sequence of further operations — fails with AlreadyInitialized;
the failed call changes nothing. -/
theorem create_market_once (e : Env) (q : List Nat) (t : Nat) (ms : Addr)
    (c0 c1 : Chain) (h : create_market e q t ms c0 = .ok c1) :
    c1.market.close_ts ≠ 0
    ∧ (∀ e2 q2 t2 ms2, create_market e2 q2 t2 ms2 c1 = .error .alreadyInitialized)
    ∧ (∀ as e2 q2 t2 ms2,
        create_market e2 q2 t2 ms2 (run c1 as) = .error .alreadyInitialized) := by
  obtain ⟨g1, g2, g3, g4⟩ := create_market_ok h
  have hne : c1.market.close_ts ≠ 0 := by omega
  refine ⟨hne, fun e2 q2 t2 ms2 => create_market_already e2 q2 t2 ms2 c1 hne,
    fun as e2 q2 t2 ms2 => create_market_already e2 q2 t2 ms2 (run c1 as) ?_⟩
  rw [run_close_ts c1 as hne]
  exact hne

/-- C7 witness: the one successful creation of c1ex and the guaranteed
rejection of a repeat creation. -/
theorem create_market_once_witness :
    create_market env0 q0 50 2 chain0 = .ok c1ex
    ∧ c1ex.market.close_ts ≠ 0
    ∧ create_market ⟨60, 9, 100⟩ q0 900 3 c1ex = .error .alreadyInitialized := by
  have h := create_market_once env0 q0 50 2 chain0 c1ex rfl
  exact ⟨rfl, h.1, h.2.1 ⟨60, 9, 100⟩ q0 900 3⟩

/-- C8: a buy on either side whose bundled payment names a receiver other
than the contract address or a sender other than the caller is rejected —
with the payment-receiver abort checked first, then the payment-sender
abort, both grouped as Unauthorized in the specification — and, the call
failing, no state changes and no tokens are issued. -/
theorem buy_payment_guard (e : Env) (p : PayTxn) (c : Chain)
    (h : p.receiver ≠ e.appAddr ∨ p.sender ≠ e.sender) :
    buy_yes e p c
      = .error (if p.receiver = e.appAddr then .paySenderMismatch else .payNotToContract)
    ∧ buy_no e p c
      = .error (if p.receiver = e.appAddr then .paySenderMismatch else .payNotToContract) := by
  by_cases hr : p.receiver = e.appAddr
  · have hs : p.sender ≠ e.sender := by
      rcases h with h | h
      · exact absurd hr h
      · exact h
    constructor
    · unfold buy_yes
      simp [hr, hs]
    · unfold buy_no
      simp [hr, hs]
  · constructor
    · unfold buy_yes
      simp [hr]
    · unfold buy_no
      simp [hr]

/-- C8 witness: on cOpen, a payment routed to address 99 instead of the
contract 100 is rejected, as is a payment whose declared sender 6 differs
from the caller 5. -/
theorem buy_payment_guard_witness :
    ((99 : Nat) ≠ (100 : Nat) ∨ (5 : Nat) ≠ (5 : Nat))
    ∧ buy_yes ⟨10, 5, 100⟩ ⟨5, 99, 7⟩ cOpen = .error .payNotToContract
    ∧ buy_no ⟨10, 5, 100⟩ ⟨5, 99, 7⟩ cOpen = .error .payNotToContract
    ∧ ((100 : Nat) ≠ (100 : Nat) ∨ (6 : Nat) ≠ (5 : Nat))
    ∧ buy_yes ⟨10, 5, 100⟩ ⟨6, 100, 7⟩ cOpen = .error .paySenderMismatch
    ∧ buy_no ⟨10, 5, 100⟩ ⟨6, 100, 7⟩ cOpen = .error .paySenderMismatch := by
  have hA := buy_payment_guard ⟨10, 5, 100⟩ ⟨5, 99, 7⟩ cOpen (Or.inl (by decide))
  have hB := buy_payment_guard ⟨10, 5, 100⟩ ⟨6, 100, 7⟩ cOpen (Or.inr (by decide))
  exact ⟨Or.inl (by decide), hA.1, hA.2, Or.inr (by decide), hB.1, hB.2⟩

/-- C9 counterexample: the claim quantifies over every pair of reserve
values, but with yes_reserve = 2 ^ 60 and no_reserve = 0 the TEAL uint64
multiplication yes_reserve * 10000 overflows and the query call aborts
instead of returning 10000 basis points. -/
theorem probability_overflow_cex :
    cBig.market.yes_reserve = 2 ^ 60
    ∧ cBig.market.no_reserve = 0
    ∧ compute_yes_probability cBig = .error .overflow
    ∧ compute_yes_probability cBig ≠
        .ok (cBig.market.yes_reserve * 10000
          / (cBig.market.yes_reserve + cBig.market.no_reserve)) := by
  refine ⟨rfl, rfl, rfl, ?_⟩
  intro hcon
  rw [show compute_yes_probability cBig = .error .overflow from rfl] at hcon
  exact Except.noConfusion hcon

/-- C9 (amended): whenever the uint64 arithmetic the query performs stays in
range (yes + no < 2 ^ 64 and yes * 10000 < 2 ^ 64), the implied-probability
query returns yes * 10000 / (yes + no) with truncating natural division, and
exactly 5000 when both reserves are zero; with reserves 100 and 300 it
returns 2500 (see the witness); larger reserves abort the call with the TEAL
overflow failure.  The query is a pure read of the chain: it returns no new
state. -/
theorem implied_probability_basis_points (c : Chain)
    (h1 : c.market.yes_reserve + c.market.no_reserve < U64)
    (h2 : c.market.yes_reserve * 10000 < U64) :
    compute_yes_probability c =
      .ok (if c.market.yes_reserve + c.market.no_reserve = 0 then 5000
           else c.market.yes_reserve * 10000
             / (c.market.yes_reserve + c.market.no_reserve)) := by
  simp only [compute_yes_probability]
  split_ifs with g1
  · rfl
  · rfl

/-- C9 witness: the amended theorem evaluated at reserves 100 / 300 (2500
basis points, truncating division) and at the empty market (5000). -/
theorem implied_probability_witness :
    cProb.market.yes_reserve + cProb.market.no_reserve < U64
    ∧ cProb.market.yes_reserve * 10000 < U64
    ∧ compute_yes_probability cProb = .ok 2500
    ∧ compute_yes_probability chain0 = .ok 5000 :=
  ⟨by decide, by decide,
    implied_probability_basis_points cProb (by decide) (by decide),
    implied_probability_basis_points chain0 (by decide) (by decide)⟩

/-- C10: the multisig_addr stored by create_market is never read back.
Resolve authorization compares the caller only against the stored creator;
creations differing only in the multisig argument yield chains identical
after erasing the multisig slot; and any two chains identical up to that
slot stay so, with identical errors and identical ABI outputs, under every
buy, resolve, claim and create call and every operation sequence. -/
theorem multisig_never_read (c d : Chain) (h : scrubMs c = scrubMs d) :
    (∀ e o c2, isOkRes (resolve_market e o c2) = true → e.sender = c2.market.creator)
    ∧ (∀ e q t ms1 ms2 c0, (create_market e q t ms1 c0).map scrubMs
        = (create_market e q t ms2 c0).map scrubMs)
    ∧ (∀ as, scrubMs (run c as) = scrubMs (run d as))
    ∧ (∀ e p, (buy_yes e p c).map (fun pr => (scrubMs pr.1, pr.2))
        = (buy_yes e p d).map (fun pr => (scrubMs pr.1, pr.2)))
    ∧ (∀ e p, (buy_no e p c).map (fun pr => (scrubMs pr.1, pr.2))
        = (buy_no e p d).map (fun pr => (scrubMs pr.1, pr.2)))
    ∧ (∀ e o, (resolve_market e o c).map scrubMs = (resolve_market e o d).map scrubMs)
    ∧ (∀ e2, (claim e2 c).map (fun pr => (scrubMs pr.1, pr.2))
        = (claim e2 d).map (fun pr => (scrubMs pr.1, pr.2)))
    ∧ (∀ e q t ms, (create_market e q t ms c).map scrubMs
        = (create_market e q t ms d).map scrubMs) := by
  refine ⟨fun e o c2 hok => resolve_ok_sender hok,
    fun e q t ms1 ms2 c0 => create_market_ms_scrub e q t ms1 ms2 c0,
    fun as => run_scrub_congr as h, ?_, ?_, ?_, ?_, ?_⟩
  · intro e p
    rw [scrub_eq_setMs h, buy_yes_setMs]
    cases buy_yes e p c <;> rfl
  · intro e p
    rw [scrub_eq_setMs h, buy_no_setMs]
    cases buy_no e p c <;> rfl
  · intro e o
    rw [scrub_eq_setMs h, resolve_market_setMs]
    cases resolve_market e o c <;> rfl
  · intro e2
    rw [scrub_eq_setMs h, claim_setMs]
    cases claim e2 c <;> rfl
  · intro e q t ms
    rw [scrub_eq_setMs h, create_market_setMs]

/-- C10 witness: cOpen and the same chain with the multisig slot replaced by
77 agree after scrubbing, so the theorem applies; in particular every
operation sequence keeps them identical up to the multisig slot. -/
theorem multisig_never_read_witness :
    scrubMs cOpen = scrubMs (setMs cOpen 77)
    ∧ (∀ as, scrubMs (run cOpen as) = scrubMs (run (setMs cOpen 77) as))
    ∧ (∀ e o, (resolve_market e o cOpen).map scrubMs
        = (resolve_market e o (setMs cOpen 77)).map scrubMs) := by
  have h := multisig_never_read cOpen (setMs cOpen 77) rfl
  exact ⟨rfl, h.2.2.1, h.2.2.2.2.2.1⟩

end AlgoCast
